import Mathlib

/-!
Verification development for the cargo-bitbake recipe generator.

The definitions below are a shallow embedding of src/main.rs: the per-dependency
source-URI translation (the filter_map closure of real_main), the git revision
choice, the checksum annotation, the metadata fallbacks, the version-stability
directive, and the assembly of the substituted template fields. External
collaborators that live outside the embedded sources (the git and license
modules) are modelled from the specification where a claim needs them, and are
marked as such in their doc comments. Machinery that no claim touches (the
license-file directive list, the workspace-relative directory, the actual file
write) is outside the embedding; fatal conditions surface as Except.error, which
is the state in which no output recipe exists.

String operations are modelled structurally over the character list so that
every definition evaluates by kernel reduction: Rust compares and sorts strings
byte-wise, and for UTF-8 the byte order coincides with the code-point order used
here.
-/

deriving instance DecidableEq for Except

/-- Characters of a string with whitespace stripped from both ends, modelling
Rust str trimming as used on summary, homepage and license strings. -/
def strTrim (s : String) : String :=
  List.asString (((s.toList.dropWhile Char.isWhitespace).reverse.dropWhile
    Char.isWhitespace).reverse)

/-- Split of a string at every occurrence of a character, modelling the Rust
split used on the license string. -/
def splitChar (c : Char) (s : String) : List String :=
  (s.toList.splitOn c).map List.asString

/-- Character membership test, modelling the Rust contains used for the
underscore advisory on the package name. -/
def containsChar (c : Char) (s : String) : Bool :=
  s.toList.contains c

/-- Replacement of every occurrence of a character by a string, modelling the
Rust replace used on the summary. -/
def replaceChar (c : Char) (r : String) (s : String) : String :=
  List.asString (s.toList.flatMap fun ch => if ch = c then r.toList else [ch])

/-- Lexicographic order on strings as character lists, modelling the Rust
byte-wise string order under which the rendered source-URI lines are sorted
(main.rs line 224). -/
def strLe (a b : String) : Prop := a.toList ≤ b.toList

instance : DecidableRel strLe :=
  fun a b => inferInstanceAs (Decidable (a.toList ≤ b.toList))

instance : IsTotal String strLe := ⟨fun a b => le_total a.toList b.toList⟩

instance : IsTrans String strLe := ⟨fun _ _ _ h₁ h₂ => le_trans h₁ h₂⟩

/-- Two strings with the same character list are equal. -/
theorem string_toList_inj (a b : String) (h : a.toList = b.toList) : a = b := by
  cases a; cases b; exact congrArg String.mk (by simpa [String.toList] using h)

instance : IsAntisymm String strLe :=
  ⟨fun a b h₁ h₂ => string_toList_inj a b (le_antisymm h₁ h₂)⟩

/-- Git reference stored on a git source, mirroring cargo's GitReference as
matched in main.rs lines 183-206. -/
inductive GitReference where
  | Tag : String → GitReference
  | Rev : String → GitReference
  | Branch : String → GitReference
  | DefaultBranch : GitReference
  deriving DecidableEq, Repr

/-- Source descriptor of a resolved package: the four source kinds probed in the
filter_map of real_main (registry, path, git with its reference and optional
resolver-pinned precise commit, and the raw-URL fallthrough). -/
inductive SourceId where
  | Registry (host : String) : SourceId
  | PathSrc : SourceId
  | Git (url : String) (reference : GitReference) (precise : Option String) : SourceId
  | Other (url : String) : SourceId
  deriving DecidableEq, Repr

/-- One resolved dependency as the loop in real_main sees it: name, version,
source descriptor, and the checksum the package set records for it (a failed
lookup and an absent checksum both appear as none, exactly the two silent
cases of get_checksum). -/
structure ResolvedPackage where
  name : String
  version : String
  source : SourceId
  checksum : Option String
  deriving DecidableEq, Repr

/-- Command-line arguments of the bitbake subcommand (main.rs lines 45-66). -/
structure Args where
  quiet : Bool
  verbose : Nat
  reproducible : Bool
  no_checksums : Bool
  legacy_overrides : Bool
  deriving DecidableEq, Repr

/-- Manifest metadata fields of the current package that real_main reads. -/
structure ManifestMetadata where
  description : Option String
  homepage : Option String
  repository : Option String
  license : Option String
  license_file : Option String
  deriving DecidableEq, Repr

/-- The package a recipe is generated for: its name, version and manifest
metadata. -/
structure CurrentPackage where
  name : String
  version : String
  metadata : ManifestMetadata
  deriving DecidableEq, Repr

/-- Modelled from the spec: ProjectRepo from the git module (not under src/),
the current project's checkout state: remote URI, revision string, and whether
the checkout is exactly at a tag. The introspection fallback substitutes the
default value (empty strings, not a tag). -/
structure ProjectRepo where
  uri : String
  rev : String
  tag : Bool
  deriving DecidableEq, Repr

/-- Modelled from the spec: git_to_yocto_git_url from the git module (not under
src/), which rewrites the git remote URL into the target fetch-URL form, tagged
with the dependency name to disambiguate multiple git fetches in one recipe. -/
def git_to_yocto_git_url (url : String) (name : String) : String :=
  url ++ ";name=" ++ name

/-- Modelled from the spec: CLOSED_LICENSE from the license module (not under
src/), the default closed-license marker assumed when neither a license nor a
license file is declared. -/
def CLOSED_LICENSE : String := "CLOSED"

/-- Fixed registry host used for every registry line (main.rs line 29). -/
def CRATES_IO_URL : String := "crates.io"

/-- Checksum annotation for a registry package (main.rs lines 31-43): the
package-set lookup result is the optional checksum carried on the package, and
none yields the empty annotation. -/
def get_checksum (checksum : Option String) (name version : String) : String :=
  match checksum with
  | none => ""
  | some crc =>
    ";sha256sum=" ++ crc ++ ";" ++ name ++ "-" ++ version ++ ".sha256sum=" ++ crc

/-- Revision choice for one git dependency (main.rs lines 174-207): the
reproducible-mode precise pin wins, otherwise the stored reference decides; an
abbreviated Rev with no precise commit aborts the process, which is modelled as
the error carrying the abort message. -/
def resolve_git_rev (reproducible : Bool) (reference : GitReference)
    (precise_commit : Option String) : Except String String :=
  let precise := if reproducible then precise_commit else none
  match precise with
  | some p => Except.ok p
  | none =>
    match reference with
    | GitReference.Tag s => Except.ok s
    | GitReference.Rev s =>
      if s.length = 40 then
        Except.ok s
      else
        match precise_commit with
        | some p => Except.ok p
        | none => Except.error "cannot find rev in correct format!"
    | GitReference.Branch s =>
      Except.ok (if s = "master" then "${AUTOREV}" else s)
    | GitReference.DefaultBranch => Except.ok "${AUTOREV}"

/-- Translation of one resolved dependency (the filter_map closure, main.rs
lines 133-220): the optional rendered source-URI line paired with the
side-variable lines this dependency appends, or the fatal abort propagated from
the revision choice. -/
def process_dep (options : Args) (selfName : String) (pkg : ResolvedPackage) :
    Except String (Option String × List String) :=
  if pkg.name = selfName then
    Except.ok (none, [])
  else
    match pkg.source with
    | SourceId.Registry _ =>
      if options.no_checksums then
        Except.ok (some ("    crate://" ++ CRATES_IO_URL ++ "/" ++ pkg.name ++ "/"
          ++ pkg.version ++ " \\\n"), [])
      else
        Except.ok (some ("    crate://" ++ CRATES_IO_URL ++ "/" ++ pkg.name ++ "/"
          ++ pkg.version ++ get_checksum pkg.checksum pkg.name pkg.version
          ++ " \\\n"), [])
    | SourceId.PathSrc => Except.ok (none, [])
    | SourceId.Git url reference precise_commit =>
      match resolve_git_rev options.reproducible reference precise_commit with
      | Except.error e => Except.error e
      | Except.ok rev =>
        Except.ok (some ("    " ++ git_to_yocto_git_url url pkg.name ++ " \\\n"),
          ["SRCREV_FORMAT .= \"_" ++ pkg.name ++ "\"",
           "SRCREV_" ++ pkg.name ++ " = \"" ++ rev ++ "\"",
           "EXTRA_OECARGO_PATHS += \"${WORKDIR}/" ++ pkg.name ++ "\""])
    | SourceId.Other url => Except.ok (some ("    " ++ url ++ " \\\n"), [])

/-- The dependency loop (main.rs lines 129-221): rendered lines in resolver
iteration order paired with the side-variable lines in dependency-encounter
order; an abort inside the loop surfaces as the error. -/
def build_src_uris (options : Args) (selfName : String) :
    List ResolvedPackage → Except String (List String × List String)
  | [] => Except.ok ([], [])
  | pkg :: rest =>
    match process_dep options selfName pkg with
    | Except.error e => Except.error e
    | Except.ok (line, extras) =>
      match build_src_uris options selfName rest with
      | Except.error e => Except.error e
      | Except.ok (uris, restExtras) =>
        Except.ok (line.toList ++ uris, extras ++ restExtras)

/-- Version-stability directive (main.rs lines 295-311): outside an exact tag,
a revision longer than ten characters folds its first ten characters into PV,
under the override key selected by the legacy-syntax flag. -/
def git_srcpv (legacy_overrides : Bool) (project_repo : ProjectRepo) : String :=
  if project_repo.tag = false ∧ project_repo.rev.length > 10 then
    (if legacy_overrides then "PV_append" else "PV:append")
      ++ " = \".AUTOINC+" ++ project_repo.rev.take 10 ++ "\""
  else
    ""

/-- Summary fallback (main.rs lines 230-236): the trimmed description with
newlines turned into continuations, or the package name with an advisory. -/
def summary_of (metadata : ManifestMetadata) (pkgName : String) :
    String × List String :=
  match metadata.description with
  | none => (pkgName, ["No package.description set in your Cargo.toml, using package.name"])
  | some s => (replaceChar '\n' " \\\n" (strTrim s), [])

/-- Homepage fallback (main.rs lines 239-252): homepage, else repository, else
a fatal error; the chosen string is trimmed. -/
def homepage_of (metadata : ManifestMetadata) :
    Except String (String × List String) :=
  match metadata.homepage with
  | some h => Except.ok (strTrim h, [])
  | none =>
    match metadata.repository with
    | some r =>
      Except.ok (strTrim r,
        ["No package.homepage set in your Cargo.toml, trying package.repository"])
    | none => Except.error "No package.repository set in your Cargo.toml"

/-- License fallback (main.rs lines 255-268): license, else license file, else
the closed-license marker, with the advisories printed along the way. -/
def license_of (metadata : ManifestMetadata) : String × List String :=
  match metadata.license with
  | some l => (l, [])
  | none =>
    match metadata.license_file with
    | some lf =>
      (lf, ["No package.license set in your Cargo.toml, trying package.license_file"])
    | none =>
      (CLOSED_LICENSE,
       ["No package.license set in your Cargo.toml, trying package.license_file",
        "No package.license_file set in your Cargo.toml",
        "Assuming " ++ CLOSED_LICENSE ++ " license"])

/-- License rendering in the target format (main.rs line 285): split at slashes,
trim the parts, join with vertical bars. -/
def yocto_license (license : String) : String :=
  String.intercalate " | " ((splitChar '/' license).map strTrim)

/-- Fields substituted into the recipe template on the success path (main.rs
lines 326-343), with the advisory lines printed along the way. -/
structure RecipeOutput where
  name : String
  version : String
  summary : String
  homepage : String
  license : String
  src_uri : String
  src_uri_extras : String
  git_srcpv : String
  project_src_uri : String
  project_src_rev : String
  warnings : List String
  deriving DecidableEq, Repr

/-- The generation pass of real_main (main.rs lines 90-348) over a resolver
snapshot: the current package, the resolved dependencies in resolver iteration
order, and the project checkout state after the introspection fallback. Vec
sort on the rendered lines is stable and its output is exactly the sorted
permutation of its input, which insertionSort realizes. A fatal condition
surfaces as the error, and no output recipe exists in that case. -/
def real_main (options : Args) (package : CurrentPackage)
    (resolve : List ResolvedPackage) (project_repo : ProjectRepo) :
    Except String RecipeOutput :=
  let underscoreWarnings :=
    if containsChar '_' package.name then ["Package name contains an underscore"]
    else []
  match build_src_uris options package.name resolve with
  | Except.error e => Except.error e
  | Except.ok (uris, src_uri_extras) =>
    let src_uris := List.insertionSort strLe uris
    let metadata := package.metadata
    let summaryPair := summary_of metadata package.name
    match homepage_of metadata with
    | Except.error e => Except.error e
    | Except.ok (homepage, homepageWarnings) =>
      let licensePair := license_of metadata
      Except.ok
        { name := package.name
          version := package.version
          summary := summaryPair.1
          homepage := homepage
          license := yocto_license licensePair.1
          src_uri := String.join src_uris
          src_uri_extras := String.intercalate "\n" src_uri_extras
          git_srcpv := git_srcpv options.legacy_overrides project_repo
          project_src_uri := project_repo.uri
          project_src_rev := project_repo.rev
          warnings := underscoreWarnings ++ summaryPair.2 ++ homepageWarnings
            ++ licensePair.2 }

/-- An Except value is ok exactly when it is some Except.ok. -/
theorem except_isOk_iff {ε α : Type} (x : Except ε α) :
    x.isOk = true ↔ ∃ a, x = Except.ok a := by
  cases x <;> simp [Except.isOk, Except.toBool]

/-- Unfolding of the dependency fold on a first dependency. -/
theorem build_src_uris_cons (options : Args) (selfName : String)
    (pkg : ResolvedPackage) (rest : List ResolvedPackage) :
    build_src_uris options selfName (pkg :: rest) =
      match process_dep options selfName pkg with
      | Except.error e => Except.error e
      | Except.ok (line, extras) =>
        match build_src_uris options selfName rest with
        | Except.error e => Except.error e
        | Except.ok (uris, restExtras) =>
          Except.ok (line.toList ++ uris, extras ++ restExtras) := rfl

/-- The dependency fold distributes over list append: lines and side variables
of a concatenation are the concatenations, and an abort in either part aborts
the whole. -/
theorem build_src_uris_append (options : Args) (selfName : String)
    (l₁ l₂ : List ResolvedPackage) :
    build_src_uris options selfName (l₁ ++ l₂) =
      match build_src_uris options selfName l₁,
          build_src_uris options selfName l₂ with
      | Except.ok (u₁, e₁), Except.ok (u₂, e₂) => Except.ok (u₁ ++ u₂, e₁ ++ e₂)
      | Except.error e, _ => Except.error e
      | Except.ok _, Except.error e => Except.error e := by
  induction l₁ with
  | nil =>
    cases h₂ : build_src_uris options selfName l₂ with
    | error e => simp [build_src_uris, h₂]
    | ok p => cases p; simp [build_src_uris, h₂]
  | cons pkg rest ih =>
    cases hp : process_dep options selfName pkg with
    | error e => simp [build_src_uris, hp]
    | ok le =>
      cases le with
      | mk line extras =>
        cases h₁ : build_src_uris options selfName rest with
        | error e => simp [build_src_uris, hp, h₁] at ih ⊢; simp [ih]
        | ok p₁ =>
          cases p₁ with
          | mk u₁ e₁ =>
            cases h₂ : build_src_uris options selfName l₂ with
            | error e => simp [build_src_uris, hp, h₁, h₂] at ih ⊢; simp [ih]
            | ok p₂ =>
              cases p₂ with
              | mk u₂ e₂ =>
                simp [build_src_uris, hp, h₁, h₂] at ih ⊢; simp [ih]

/-- The dependency fold succeeds exactly when every dependency translates
without an abort. -/
theorem build_src_uris_isOk (options : Args) (selfName : String)
    (l : List ResolvedPackage) :
    (build_src_uris options selfName l).isOk = true ↔
      ∀ pkg ∈ l, (process_dep options selfName pkg).isOk = true := by
  induction l with
  | nil => simp [build_src_uris, Except.isOk, Except.toBool]
  | cons pkg rest ih =>
    cases hp : process_dep options selfName pkg with
    | error e => simp [build_src_uris, hp, Except.isOk, Except.toBool]
    | ok le =>
      cases le with
      | mk line extras =>
        cases h₁ : build_src_uris options selfName rest with
        | error e =>
          rw [h₁] at ih
          simp only [Except.isOk, Except.toBool, Bool.false_eq_true, false_iff] at ih
          simp [build_src_uris, hp, h₁, Except.isOk, Except.toBool, ih]
        | ok p₁ =>
          cases p₁ with
          | mk u₁ e₁ =>
            rw [h₁] at ih
            simp only [Except.isOk, Except.toBool, true_iff] at ih
            simp [build_src_uris, hp, h₁, Except.isOk, Except.toBool]
            exact ih

/-- Permuting the resolver iteration order permutes the rendered lines. -/
theorem build_src_uris_perm (options : Args) (selfName : String)
    {l₁ l₂ : List ResolvedPackage} (hperm : l₁.Perm l₂) :
    ∀ {u₁ e₁ u₂ e₂},
      build_src_uris options selfName l₁ = Except.ok (u₁, e₁) →
      build_src_uris options selfName l₂ = Except.ok (u₂, e₂) → u₁.Perm u₂ := by
  induction hperm with
  | nil =>
    intro u₁ e₁ u₂ e₂ h₁ h₂
    simp [build_src_uris] at h₁ h₂
    rw [h₁.1, h₂.1]
  | cons x htail ih =>
    rename_i t₁ t₂
    intro u₁ e₁ u₂ e₂ h₁ h₂
    cases hp : process_dep options selfName x with
    | error e => simp [build_src_uris, hp] at h₁
    | ok le =>
      cases le with
      | mk line extras =>
        cases hb₁ : build_src_uris options selfName t₁ with
        | error e => simp [build_src_uris, hp, hb₁] at h₁
        | ok p₁ =>
          cases p₁ with
          | mk u e =>
            cases hb₂ : build_src_uris options selfName t₂ with
            | error e => simp [build_src_uris, hp, hb₂] at h₂
            | ok p₂ =>
              cases p₂ with
              | mk u' e' =>
                simp [build_src_uris, hp, hb₁] at h₁
                simp [build_src_uris, hp, hb₂] at h₂
                rw [← h₁.1, ← h₂.1]
                exact List.Perm.append_left _ (ih hb₁ hb₂)
  | swap x y l =>
    intro u₁ e₁ u₂ e₂ h₁ h₂
    cases hx : process_dep options selfName x with
    | error e => simp [build_src_uris, hx] at h₂
    | ok lex =>
      cases lex with
      | mk linex extrasx =>
        cases hy : process_dep options selfName y with
        | error e => simp [build_src_uris, hx, hy] at h₂
        | ok ley =>
          cases ley with
          | mk liney extrasy =>
            cases hb : build_src_uris options selfName l with
            | error e => simp [build_src_uris, hx, hy, hb] at h₂
            | ok p =>
              cases p with
              | mk u e =>
                simp [build_src_uris, hx, hy, hb] at h₁ h₂
                rw [← h₁.1, ← h₂.1]
                have hcomm : List.Perm ((liney.toList ++ linex.toList) ++ u)
                    ((linex.toList ++ liney.toList) ++ u) :=
                  List.Perm.append_right u List.perm_append_comm
                simpa [List.append_assoc] using hcomm
  | trans p₁ p₂ ih₁ ih₂ =>
    rename_i la lb lc
    intro u₁ e₁ u₂ e₂ h₁ h₂
    have hmemOk : ∀ pkg ∈ lb, (process_dep options selfName pkg).isOk = true := by
      have hall := (build_src_uris_isOk options selfName la).mp
        ((except_isOk_iff _).mpr ⟨_, h₁⟩)
      intro pkg hmem
      exact hall pkg (p₁.mem_iff.mpr hmem)
    have hmid : (build_src_uris options selfName lb).isOk = true :=
      (build_src_uris_isOk options selfName lb).mpr hmemOk
    obtain ⟨pm, hm⟩ := (except_isOk_iff _).mp hmid
    cases pm with
    | mk um em => exact (ih₁ h₁ hm).trans (ih₂ hm h₂)

/-- Sorting is invariant under permutation of the input: two permuted line lists
sort to the same list. -/
theorem insertionSort_eq_of_perm {u₁ u₂ : List String} (h : u₁.Perm u₂) :
    List.insertionSort strLe u₁ = List.insertionSort strLe u₂ :=
  List.eq_of_perm_of_sorted
    ((List.perm_insertionSort strLe u₁).trans
      (h.trans (List.perm_insertionSort strLe u₂).symm))
    (List.sorted_insertionSort strLe u₁)
    (List.sorted_insertionSort strLe u₂)

/-- The generation pass succeeds exactly when the dependency fold succeeds and a
homepage (or repository fallback) exists. -/
theorem real_main_isOk (options : Args) (package : CurrentPackage)
    (resolve : List ResolvedPackage) (project_repo : ProjectRepo) :
    (real_main options package resolve project_repo).isOk = true ↔
      ((build_src_uris options package.name resolve).isOk = true
        ∧ (homepage_of package.metadata).isOk = true) := by
  cases hb : build_src_uris options package.name resolve with
  | error e => simp [real_main, hb, Except.isOk, Except.toBool]
  | ok p =>
    cases p with
    | mk uris extras =>
      cases hh : homepage_of package.metadata with
      | error e => simp [real_main, hb, hh, Except.isOk, Except.toBool]
      | ok q =>
        cases q with
        | mk homepage hw => simp [real_main, hb, hh, Except.isOk, Except.toBool]

/-- On the success path the emitted source-URI block is the join of the sorted
rendered lines and the side-variable block is the newline join of the
side-variable lines in encounter order. -/
theorem real_main_blocks (options : Args) (package : CurrentPackage)
    (resolve : List ResolvedPackage) (project_repo : ProjectRepo)
    (out : RecipeOutput)
    (h : real_main options package resolve project_repo = Except.ok out) :
    ∃ uris extras,
      build_src_uris options package.name resolve = Except.ok (uris, extras)
        ∧ out.src_uri = String.join (List.insertionSort strLe uris)
        ∧ out.src_uri_extras = String.intercalate "\n" extras := by
  cases hb : build_src_uris options package.name resolve with
  | error e => simp [real_main, hb] at h
  | ok p =>
    cases p with
    | mk uris extras =>
      cases hh : homepage_of package.metadata with
      | error e => simp [real_main, hb, hh] at h
      | ok q =>
        cases q with
        | mk homepage hw =>
          simp [real_main, hb, hh] at h
          refine ⟨uris, extras, rfl, ?_, ?_⟩ <;> rw [← h]

/-- Appending strings is associative, via the underlying character lists. -/
theorem str_append_assoc (a b c : String) : (a ++ b) ++ c = a ++ (b ++ c) :=
  string_toList_inj _ _ (by
    show (a.toList ++ b.toList) ++ c.toList = a.toList ++ (b.toList ++ c.toList)
    exact List.append_assoc a.toList b.toList c.toList)

/-- C1 (amended): the emitted source-URI block is the ascending-sorted list of
the rendered, non-suppressed dependency lines with multiplicity kept (the code
sorts but never deduplicates), and it is independent of the resolver iteration
order: permuting the resolved set preserves success and yields an identical
block. -/
theorem src_uri_block_sorted_order_independent
    (options : Args) (package : CurrentPackage) (project_repo : ProjectRepo)
    (l₁ l₂ : List ResolvedPackage) (hperm : l₁.Perm l₂) :
    ((real_main options package l₁ project_repo).isOk
      = (real_main options package l₂ project_repo).isOk)
    ∧ (∀ out₁ out₂, real_main options package l₁ project_repo = Except.ok out₁ →
        real_main options package l₂ project_repo = Except.ok out₂ →
        out₁.src_uri = out₂.src_uri)
    ∧ (∀ out, real_main options package l₁ project_repo = Except.ok out →
        ∃ uris extras,
          build_src_uris options package.name l₁ = Except.ok (uris, extras)
            ∧ out.src_uri = String.join (List.insertionSort strLe uris)
            ∧ (List.insertionSort strLe uris).Sorted strLe) := by
  have hbOk : (build_src_uris options package.name l₁).isOk
      = (build_src_uris options package.name l₂).isOk := by
    apply Bool.eq_iff_iff.mpr
    rw [build_src_uris_isOk, build_src_uris_isOk]
    constructor
    · intro hall pkg hmem
      exact hall pkg (hperm.mem_iff.mpr hmem)
    · intro hall pkg hmem
      exact hall pkg (hperm.mem_iff.mp hmem)
  refine ⟨?_, ?_, ?_⟩
  · apply Bool.eq_iff_iff.mpr
    rw [real_main_isOk, real_main_isOk, hbOk]
  · intro out₁ out₂ h₁ h₂
    obtain ⟨u₁, e₁, hb₁, hs₁, -⟩ :=
      real_main_blocks options package l₁ project_repo out₁ h₁
    obtain ⟨u₂, e₂, hb₂, hs₂, -⟩ :=
      real_main_blocks options package l₂ project_repo out₂ h₂
    rw [hs₁, hs₂, insertionSort_eq_of_perm
      (build_src_uris_perm options package.name hperm hb₁ hb₂)]
  · intro out h
    obtain ⟨uris, extras, hb, hs, -⟩ :=
      real_main_blocks options package l₁ project_repo out h
    exact ⟨uris, extras, hb, hs, List.sorted_insertionSort strLe uris⟩

/-- C1 witness: the order-independence theorem applied to a concrete two-element
resolved set and its transposition. -/
theorem src_uri_block_sorted_order_independent_witness :
    (real_main ⟨false, 0, false, true, false⟩
        ⟨"self", "0.1.0", ⟨none, some "h", none, none, none⟩⟩
        [⟨"a", "1.0.0", SourceId.Registry "crates.io", none⟩,
         ⟨"b", "2.0.0", SourceId.Registry "crates.io", none⟩] ⟨"", "", true⟩).isOk
      = (real_main ⟨false, 0, false, true, false⟩
        ⟨"self", "0.1.0", ⟨none, some "h", none, none, none⟩⟩
        [⟨"b", "2.0.0", SourceId.Registry "crates.io", none⟩,
         ⟨"a", "1.0.0", SourceId.Registry "crates.io", none⟩] ⟨"", "", true⟩).isOk :=
  (src_uri_block_sorted_order_independent ⟨false, 0, false, true, false⟩
    ⟨"self", "0.1.0", ⟨none, some "h", none, none, none⟩⟩ ⟨"", "", true⟩
    [⟨"a", "1.0.0", SourceId.Registry "crates.io", none⟩,
     ⟨"b", "2.0.0", SourceId.Registry "crates.io", none⟩]
    [⟨"b", "2.0.0", SourceId.Registry "crates.io", none⟩,
     ⟨"a", "1.0.0", SourceId.Registry "crates.io", none⟩]
    (List.Perm.swap _ _ _)).1

/-- C1 counterexample: two distinct dependency identities (same name and
version, recorded under different registry hosts) render the same line, and the
emitted block keeps both copies, so the block is not the deduplicated set the
claim describes: a rendered line appears twice. -/
theorem src_uri_block_not_deduplicated :
    (real_main ⟨false, 0, false, true, false⟩
        ⟨"self", "0.1.0", ⟨none, some "h", none, none, none⟩⟩
        [⟨"foo", "1.0.0", SourceId.Registry "crates.io", none⟩,
         ⟨"foo", "1.0.0", SourceId.Registry "alt.example", none⟩]
        ⟨"", "", true⟩).map RecipeOutput.src_uri
      = Except.ok
          "    crate://crates.io/foo/1.0.0 \\\n    crate://crates.io/foo/1.0.0 \\\n"
    ∧ (⟨"foo", "1.0.0", SourceId.Registry "crates.io", none⟩ : ResolvedPackage)
        ≠ ⟨"foo", "1.0.0", SourceId.Registry "alt.example", none⟩ := by
  constructor
  · decide
  · decide

/-- C2 (amended): for a git dependency stored as Rev r, when the revision is not
taken from the reproducibility override: a 40-character r is used verbatim (only
the length is checked, hex-ness is not verified); an r of any other length falls
back to the resolver-supplied precise commit; and with no precise commit
generation fails fatally, so no run containing such a dependency produces an
output recipe. -/
theorem rev_revision_policy (reproducible : Bool) (r : String) (pc : Option String)
    (hover : reproducible = false ∨ pc = none) :
    (r.length = 40 →
      resolve_git_rev reproducible (GitReference.Rev r) pc = Except.ok r)
    ∧ (r.length ≠ 40 → ∀ p, pc = some p →
      resolve_git_rev reproducible (GitReference.Rev r) pc = Except.ok p)
    ∧ (r.length ≠ 40 → pc = none →
      resolve_git_rev reproducible (GitReference.Rev r) pc
        = Except.error "cannot find rev in correct format!")
    ∧ (r.length ≠ 40 → pc = none →
      ∀ (options : Args) (package : CurrentPackage) (project_repo : ProjectRepo)
        (before after : List ResolvedPackage) (url version : String)
        (depName : String) (checksum : Option String), depName ≠ package.name →
        (real_main options package
          (before ++ ⟨depName, version,
            SourceId.Git url (GitReference.Rev r) pc, checksum⟩ :: after)
          project_repo).isOk = false) := by
  refine ⟨?_, ?_, ?_, ?_⟩
  · intro h40
    rcases hover with h | h <;> simp [resolve_git_rev, h, h40]
  · intro h40 p hp
    rcases hover with h | h
    · simp [resolve_git_rev, h, h40, hp]
    · rw [h] at hp; cases hp
  · intro h40 hpc
    rcases hover with h | h <;> simp [resolve_git_rev, h, h40, hpc]
  · intro h40 hpc options package project_repo before after url version depName
      checksum hname
    have hproc : process_dep options package.name
        ⟨depName, version, SourceId.Git url (GitReference.Rev r) pc, checksum⟩
        = Except.error "cannot find rev in correct format!" := by
      simp [process_dep, hname, resolve_git_rev, hpc, h40]
    cases hmain : (real_main options package
        (before ++ ⟨depName, version,
          SourceId.Git url (GitReference.Rev r) pc, checksum⟩ :: after)
        project_repo).isOk with
    | false => rfl
    | true =>
      exfalso
      have hbOk := ((real_main_isOk options package _ project_repo).mp hmain).1
      have hall := (build_src_uris_isOk options package.name _).mp hbOk
      have hmem : (⟨depName, version,
          SourceId.Git url (GitReference.Rev r) pc, checksum⟩ : ResolvedPackage)
          ∈ before ++ ⟨depName, version,
            SourceId.Git url (GitReference.Rev r) pc, checksum⟩ :: after := by
        simp
      have hdep := hall _ hmem
      rw [hproc] at hdep
      simp [Except.isOk, Except.toBool] at hdep

/-- C2 witness: the revision policy applied to a concrete full-length revision,
used verbatim, and to a concrete abbreviated revision with no precise commit,
which aborts. -/
theorem rev_revision_policy_witness :
    resolve_git_rev false
        (GitReference.Rev "0123456789012345678901234567890123456789") none
      = Except.ok "0123456789012345678901234567890123456789"
    ∧ resolve_git_rev false (GitReference.Rev "deadbeef") none
      = Except.error "cannot find rev in correct format!" :=
  ⟨(rev_revision_policy false "0123456789012345678901234567890123456789" none
      (Or.inl rfl)).1 (by decide),
   (rev_revision_policy false "deadbeef" none (Or.inl rfl)).2.2.1 (by decide) rfl⟩

/-- C2 counterexample: a 40-character revision that is not hexadecimal is used
verbatim and generation succeeds, where the claim (which admits only 40 hex
characters as full-length) demands the precise commit or a fatal failure. -/
theorem rev_hex_not_verified :
    resolve_git_rev false
        (GitReference.Rev "zzzzzzzzzzzzzzzzzzzzzzzzzzzzzzzzzzzzzzzz") none
      = Except.ok "zzzzzzzzzzzzzzzzzzzzzzzzzzzzzzzzzzzzzzzz"
    ∧ ("zzzzzzzzzzzzzzzzzzzzzzzzzzzzzzzzzzzzzzzz" : String).length = 40
    ∧ ("zzzzzzzzzzzzzzzzzzzzzzzzzzzzzzzzzzzzzzzz" : String).toList.all
        (fun c => c.isDigit || ('a' ≤ c && c ≤ 'f') || ('A' ≤ c && c ≤ 'F'))
        = false
    ∧ (real_main ⟨false, 0, false, false, false⟩
        ⟨"self", "0.1.0", ⟨none, some "h", none, none, none⟩⟩
        [⟨"dep", "1.0.0", SourceId.Git "https://example/repo"
          (GitReference.Rev "zzzzzzzzzzzzzzzzzzzzzzzzzzzzzzzzzzzzzzzz") none,
          none⟩]
        ⟨"", "", true⟩).isOk = true := by
  refine ⟨by decide, by decide, by decide, by decide⟩

/-- C3: with reproducibility enabled and a precise resolver pin present, the
chosen revision is that pin verbatim, whatever the stored reference is. -/
theorem reproducible_precise_commit_wins (reference : GitReference) (p : String) :
    resolve_git_rev true reference (some p) = Except.ok p := by
  cases reference <;> rfl

/-- C4: a dependency whose name equals the packaged crate's name contributes no
source-URI line and no side variables: its translation is empty and removing it
from the resolved set leaves the generated output unchanged. -/
theorem self_package_never_emitted (options : Args) (package : CurrentPackage)
    (project_repo : ProjectRepo) (pkg : ResolvedPackage)
    (before after : List ResolvedPackage) (hname : pkg.name = package.name) :
    process_dep options package.name pkg = Except.ok (none, [])
    ∧ real_main options package (before ++ pkg :: after) project_repo
        = real_main options package (before ++ after) project_repo := by
  have hproc : process_dep options package.name pkg = Except.ok (none, []) := by
    simp [process_dep, hname]
  refine ⟨hproc, ?_⟩
  have hcons : build_src_uris options package.name (pkg :: after)
      = build_src_uris options package.name after := by
    rw [build_src_uris_cons, hproc]
    cases hb : build_src_uris options package.name after with
    | error e => rfl
    | ok p =>
      cases p with
      | mk u e => rfl
  have hbuild : build_src_uris options package.name (before ++ pkg :: after)
      = build_src_uris options package.name (before ++ after) := by
    rw [build_src_uris_append, build_src_uris_append, hcons]
  simp [real_main, hbuild]

/-- C4 witness: the exclusion theorem applied to a concrete resolved set
containing the packaged crate itself. -/
theorem self_package_never_emitted_witness :
    real_main ⟨false, 0, false, true, false⟩
        ⟨"self", "0.1.0", ⟨none, some "h", none, none, none⟩⟩
        [⟨"self", "0.1.0", SourceId.PathSrc, none⟩,
         ⟨"foo", "1.0.0", SourceId.Registry "crates.io", none⟩] ⟨"", "", true⟩
      = real_main ⟨false, 0, false, true, false⟩
        ⟨"self", "0.1.0", ⟨none, some "h", none, none, none⟩⟩
        [⟨"foo", "1.0.0", SourceId.Registry "crates.io", none⟩] ⟨"", "", true⟩ :=
  (self_package_never_emitted ⟨false, 0, false, true, false⟩
    ⟨"self", "0.1.0", ⟨none, some "h", none, none, none⟩⟩ ⟨"", "", true⟩
    ⟨"self", "0.1.0", SourceId.PathSrc, none⟩ []
    [⟨"foo", "1.0.0", SourceId.Registry "crates.io", none⟩] rfl).2

/-- C5: a git dependency distinct from the packaged crate contributes exactly
one source-URI line and exactly three side-variable lines, the revision-format
directive, the revision assignment and the path registration, in that order;
and the side-variable block of a concatenation of dependency lists is the
concatenation of their side-variable blocks, so encounter order is preserved
and never sorted. -/
theorem git_dep_exact_lines (options : Args) (selfName : String)
    (pkg : ResolvedPackage) (url : String) (reference : GitReference)
    (pc : Option String) (hname : pkg.name ≠ selfName)
    (hsrc : pkg.source = SourceId.Git url reference pc) :
    (∀ line extras, process_dep options selfName pkg = Except.ok (line, extras) →
      ∃ rev, resolve_git_rev options.reproducible reference pc = Except.ok rev
        ∧ line = some ("    " ++ git_to_yocto_git_url url pkg.name ++ " \\\n")
        ∧ extras = ["SRCREV_FORMAT .= \"_" ++ pkg.name ++ "\"",
            "SRCREV_" ++ pkg.name ++ " = \"" ++ rev ++ "\"",
            "EXTRA_OECARGO_PATHS += \"${WORKDIR}/" ++ pkg.name ++ "\""])
    ∧ (∀ l₁ l₂ u e, build_src_uris options selfName (l₁ ++ l₂) = Except.ok (u, e) →
      ∃ u₁ e₁ u₂ e₂, build_src_uris options selfName l₁ = Except.ok (u₁, e₁)
        ∧ build_src_uris options selfName l₂ = Except.ok (u₂, e₂)
        ∧ u = u₁ ++ u₂ ∧ e = e₁ ++ e₂) := by
  constructor
  · intro line extras h
    cases hr : resolve_git_rev options.reproducible reference pc with
    | error e => simp [process_dep, hname, hsrc, hr] at h
    | ok rev =>
      simp [process_dep, hname, hsrc, hr] at h
      exact ⟨rev, rfl, h.1.symm, h.2.symm⟩
  · intro l₁ l₂ u e h
    rw [build_src_uris_append] at h
    cases hb₁ : build_src_uris options selfName l₁ with
    | error er => rw [hb₁] at h; simp at h
    | ok p₁ =>
      cases p₁ with
      | mk u₁ e₁ =>
        rw [hb₁] at h
        cases hb₂ : build_src_uris options selfName l₂ with
        | error er => rw [hb₂] at h; simp at h
        | ok p₂ =>
          cases p₂ with
          | mk u₂ e₂ =>
            rw [hb₂] at h
            simp at h
            exact ⟨u₁, e₁, u₂, e₂, rfl, rfl, h.1.symm, h.2.symm⟩

/-- C5 witness: the exact-lines theorem applied to a concrete git dependency on
a tag, exhibiting the single URI line and the three side variables in order. -/
theorem git_dep_exact_lines_witness :
    ∃ rev, resolve_git_rev false (GitReference.Tag "v1") none = Except.ok rev
      ∧ (some "    https://g;name=dep \\\n" : Option String)
          = some ("    " ++ git_to_yocto_git_url "https://g" "dep" ++ " \\\n")
      ∧ ["SRCREV_FORMAT .= \"_dep\"", "SRCREV_dep = \"v1\"",
          "EXTRA_OECARGO_PATHS += \"${WORKDIR}/dep\""]
          = ["SRCREV_FORMAT .= \"_" ++ "dep" ++ "\"",
             "SRCREV_" ++ "dep" ++ " = \"" ++ rev ++ "\"",
             "EXTRA_OECARGO_PATHS += \"${WORKDIR}/" ++ "dep" ++ "\""] :=
  (git_dep_exact_lines ⟨false, 0, false, false, false⟩ "self"
    ⟨"dep", "1.0.0", SourceId.Git "https://g" (GitReference.Tag "v1") none, none⟩
    "https://g" (GitReference.Tag "v1") none (by decide) rfl).1
    (some "    https://g;name=dep \\\n")
    ["SRCREV_FORMAT .= \"_dep\"", "SRCREV_dep = \"v1\"",
     "EXTRA_OECARGO_PATHS += \"${WORKDIR}/dep\""] (by decide)

/-- C6: checksum annotation on a registry line: with checksums enabled a
recorded digest appends the archive-level and per-artifact checksum keys, an
absent digest yields the bare line with an empty annotation and no error, and
with checksums disabled the line never carries a checksum suffix. -/
theorem registry_checksum_policy (options : Args) (selfName : String)
    (pkg : ResolvedPackage) (host : String) (hname : pkg.name ≠ selfName)
    (hsrc : pkg.source = SourceId.Registry host) :
    (options.no_checksums = false → ∀ d, pkg.checksum = some d →
      process_dep options selfName pkg = Except.ok (some ("    crate://"
        ++ CRATES_IO_URL ++ "/" ++ pkg.name ++ "/" ++ pkg.version
        ++ (";sha256sum=" ++ d ++ ";" ++ pkg.name ++ "-" ++ pkg.version
          ++ ".sha256sum=" ++ d) ++ " \\\n"), []))
    ∧ (options.no_checksums = false → pkg.checksum = none →
      get_checksum pkg.checksum pkg.name pkg.version = ""
      ∧ process_dep options selfName pkg = Except.ok (some ("    crate://"
          ++ CRATES_IO_URL ++ "/" ++ pkg.name ++ "/" ++ pkg.version
          ++ get_checksum pkg.checksum pkg.name pkg.version ++ " \\\n"), []))
    ∧ (options.no_checksums = true →
      process_dep options selfName pkg = Except.ok (some ("    crate://"
        ++ CRATES_IO_URL ++ "/" ++ pkg.name ++ "/" ++ pkg.version
        ++ " \\\n"), [])) := by
  refine ⟨?_, ?_, ?_⟩
  · intro hnc d hck
    simp [process_dep, hname, hsrc, hnc, hck, get_checksum]
  · intro hnc hck
    exact ⟨by simp [hck, get_checksum], by simp [process_dep, hname, hsrc, hnc]⟩
  · intro hnc
    simp [process_dep, hname, hsrc, hnc]

/-- C6 witness: the annotation theorem applied to a concrete registry package
with a recorded digest, producing the doubled checksum suffix of the spec's
example. -/
theorem registry_checksum_policy_witness :
    process_dep ⟨false, 0, false, false, false⟩ "self"
        ⟨"foo", "1.2.3", SourceId.Registry "crates.io", some "abc123"⟩
      = Except.ok
          (some "    crate://crates.io/foo/1.2.3;sha256sum=abc123;foo-1.2.3.sha256sum=abc123 \\\n",
           []) :=
  (registry_checksum_policy ⟨false, 0, false, false, false⟩ "self"
    ⟨"foo", "1.2.3", SourceId.Registry "crates.io", some "abc123"⟩ "crates.io"
    (by decide) rfl).1 rfl "abc123" rfl

/-- C7: without the reproducibility override, a Branch reference named master
resolves to the AUTOREV placeholder, any other branch name is used literally,
and the default branch always resolves to the AUTOREV placeholder. -/
theorem branch_revision_policy (reproducible : Bool) (pc : Option String)
    (b : String) (hover : reproducible = false ∨ pc = none) :
    (b = "master" →
      resolve_git_rev reproducible (GitReference.Branch b) pc
        = Except.ok "${AUTOREV}")
    ∧ (b ≠ "master" →
      resolve_git_rev reproducible (GitReference.Branch b) pc = Except.ok b)
    ∧ resolve_git_rev reproducible GitReference.DefaultBranch pc
        = Except.ok "${AUTOREV}" := by
  refine ⟨?_, ?_, ?_⟩
  · intro hb
    rcases hover with h | h <;> simp [resolve_git_rev, h, hb]
  · intro hb
    rcases hover with h | h <;> simp [resolve_git_rev, h, hb]
  · rcases hover with h | h <;> simp [resolve_git_rev, h]

/-- C7 witness: the branch policy applied to the master branch, to a feature
branch used literally, and to the default branch. -/
theorem branch_revision_policy_witness :
    resolve_git_rev false (GitReference.Branch "master") none
      = Except.ok "${AUTOREV}"
    ∧ resolve_git_rev false (GitReference.Branch "work") none = Except.ok "work"
    ∧ resolve_git_rev false GitReference.DefaultBranch none
      = Except.ok "${AUTOREV}" :=
  ⟨(branch_revision_policy false none "master" (Or.inl rfl)).1 rfl,
   (branch_revision_policy false none "work" (Or.inl rfl)).2.1 (by decide),
   (branch_revision_policy false none "anything" (Or.inl rfl)).2.2⟩

/-- C8: the version-stability directive appends AUTOINC plus the first ten
characters of the revision to PV exactly when the project is not at a tag and
its revision is longer than ten characters, under the override key chosen by
the legacy-syntax flag; in every other case the directive is empty. -/
theorem version_stability_policy (legacy_overrides : Bool)
    (project_repo : ProjectRepo) :
    (project_repo.tag = false → project_repo.rev.length > 10 →
      git_srcpv legacy_overrides project_repo =
        (if legacy_overrides then "PV_append" else "PV:append")
          ++ " = \".AUTOINC+" ++ project_repo.rev.take 10 ++ "\"")
    ∧ (project_repo.tag = true ∨ project_repo.rev.length ≤ 10 →
      git_srcpv legacy_overrides project_repo = "") := by
  constructor
  · intro htag hlen
    simp [git_srcpv, htag, hlen]
  · intro h
    rcases h with h | h
    · simp [git_srcpv, h]
    · have hnot : ¬ project_repo.rev.length > 10 := Nat.not_lt.mpr h
      simp [git_srcpv, hnot]

/-- C8 witness: the version-stability policy applied to the spec's example
revision in both override syntaxes and to a tagged checkout. -/
theorem version_stability_policy_witness :
    git_srcpv false ⟨"", "0123456789abcdef", false⟩
        = "PV:append = \".AUTOINC+0123456789\""
    ∧ git_srcpv true ⟨"", "0123456789abcdef", false⟩
        = "PV_append = \".AUTOINC+0123456789\""
    ∧ git_srcpv false ⟨"", "0123456789abcdef", true⟩ = "" :=
  ⟨(version_stability_policy false ⟨"", "0123456789abcdef", false⟩).1 rfl
      (by decide),
   (version_stability_policy true ⟨"", "0123456789abcdef", false⟩).1 rfl
      (by decide),
   (version_stability_policy false ⟨"", "0123456789abcdef", true⟩).2
      (Or.inl rfl)⟩

/-- On the success path the output license is the rendered chosen license and
every advisory of the license fallback is among the printed warnings. -/
theorem real_main_license_warnings (options : Args) (package : CurrentPackage)
    (resolve : List ResolvedPackage) (project_repo : ProjectRepo)
    (out : RecipeOutput)
    (h : real_main options package resolve project_repo = Except.ok out) :
    out.license = yocto_license (license_of package.metadata).1
    ∧ ∀ w ∈ (license_of package.metadata).2, w ∈ out.warnings := by
  cases hb : build_src_uris options package.name resolve with
  | error e => simp [real_main, hb] at h
  | ok p =>
    cases p with
    | mk uris extras =>
      cases hh : homepage_of package.metadata with
      | error e => simp [real_main, hb, hh] at h
      | ok q =>
        cases q with
        | mk homepage hw =>
          simp [real_main, hb, hh] at h
          constructor
          · rw [← h]
          · intro w hwmem
            rw [← h]
            exact List.mem_append_right _ (List.mem_append_right _
              (List.mem_append_right _ hwmem))

/-- C9: a missing homepage with no repository fallback is fatal, while a missing
license and license file fall back to the closed-license marker with printed
advisories, and blanking the license fields never changes whether generation
succeeds. -/
theorem metadata_gap_policy (options : Args) (package : CurrentPackage)
    (resolve : List ResolvedPackage) (project_repo : ProjectRepo) :
    (package.metadata.homepage = none → package.metadata.repository = none →
      (real_main options package resolve project_repo).isOk = false)
    ∧ (package.metadata.license = none → package.metadata.license_file = none →
      license_of package.metadata =
        (CLOSED_LICENSE,
         ["No package.license set in your Cargo.toml, trying package.license_file",
          "No package.license_file set in your Cargo.toml",
          "Assuming " ++ CLOSED_LICENSE ++ " license"])
      ∧ (∀ out, real_main options package resolve project_repo = Except.ok out →
          out.license = CLOSED_LICENSE
            ∧ ("Assuming " ++ CLOSED_LICENSE ++ " license") ∈ out.warnings))
    ∧ ((real_main options package resolve project_repo).isOk =
        (real_main options
          { package with metadata :=
            { package.metadata with license := none, license_file := none } }
          resolve project_repo).isOk) := by
  have hhsame : homepage_of { package.metadata with
      license := none, license_file := none } = homepage_of package.metadata := by
    cases package.metadata with
    | mk d h r l lf => rfl
  refine ⟨?_, ?_, ?_⟩
  · intro hh hr
    have hhe : homepage_of package.metadata
        = Except.error "No package.repository set in your Cargo.toml" := by
      simp [homepage_of, hh, hr]
    cases hmain : (real_main options package resolve project_repo).isOk with
    | false => rfl
    | true =>
      exfalso
      have h2 := ((real_main_isOk options package resolve project_repo).mp
        hmain).2
      rw [hhe] at h2
      simp [Except.isOk, Except.toBool] at h2
  · intro hl hlf
    have hlic : license_of package.metadata =
        (CLOSED_LICENSE,
         ["No package.license set in your Cargo.toml, trying package.license_file",
          "No package.license_file set in your Cargo.toml",
          "Assuming " ++ CLOSED_LICENSE ++ " license"]) := by
      simp [license_of, hl, hlf]
    refine ⟨hlic, ?_⟩
    intro out hout
    obtain ⟨hlicout, hwarn⟩ := real_main_license_warnings options package resolve
      project_repo out hout
    constructor
    · rw [hlicout, hlic]
      decide
    · refine hwarn _ ?_
      rw [hlic]
      simp
  · apply Bool.eq_iff_iff.mpr
    rw [real_main_isOk, real_main_isOk]
    simp only [hhsame]

/-- C9 witness: the metadata-gap policy applied to a package missing homepage
and repository, which fails, and to a successful run of a package missing both
license fields, which succeeds with the closed-license marker and the advisory
among its warnings. -/
theorem metadata_gap_policy_witness :
    (real_main ⟨false, 0, false, true, false⟩
        ⟨"p", "1.0.0", ⟨none, none, none, none, none⟩⟩ [] ⟨"", "", true⟩).isOk
      = false
    ∧ license_of ⟨none, some "h", none, none, none⟩ =
        (CLOSED_LICENSE,
         ["No package.license set in your Cargo.toml, trying package.license_file",
          "No package.license_file set in your Cargo.toml",
          "Assuming " ++ CLOSED_LICENSE ++ " license"]) :=
  ⟨(metadata_gap_policy ⟨false, 0, false, true, false⟩
      ⟨"p", "1.0.0", ⟨none, none, none, none, none⟩⟩ [] ⟨"", "", true⟩).1 rfl rfl,
   ((metadata_gap_policy ⟨false, 0, false, true, false⟩
      ⟨"p", "1.0.0", ⟨none, some "h", none, none, none⟩⟩ [] ⟨"", "", true⟩).2.1
      rfl rfl).1⟩

/-- C10: the rendered registry line always uses the fixed crates.io host: the
host recorded in the source descriptor never influences the translation, and
every emitted registry line starts with the fixed-host prefix. -/
theorem registry_host_never_used (options : Args) (selfName : String)
    (depName version : String) (checksum : Option String) (host₁ host₂ : String)
    (hname : depName ≠ selfName) :
    CRATES_IO_URL = "crates.io"
    ∧ process_dep options selfName
        ⟨depName, version, SourceId.Registry host₁, checksum⟩
      = process_dep options selfName
        ⟨depName, version, SourceId.Registry host₂, checksum⟩
    ∧ (∀ line extras,
        process_dep options selfName
            ⟨depName, version, SourceId.Registry host₁, checksum⟩
          = Except.ok (line, extras) →
        ∃ rest, line = some ("    crate://crates.io/" ++ rest)) := by
  have hlit : ("    crate://" ++ CRATES_IO_URL ++ "/") = "    crate://crates.io/" := by
    decide
  refine ⟨rfl, rfl, ?_⟩
  intro line extras h
  by_cases hnc : options.no_checksums = true
  · simp [process_dep, hname, hnc] at h
    refine ⟨depName ++ ("/" ++ (version ++ " \\\n")), ?_⟩
    rw [← h.1, ← hlit]
    simp [str_append_assoc]
  · simp [process_dep, hname, hnc] at h
    refine ⟨depName ++ ("/" ++ (version
      ++ (get_checksum checksum depName version ++ " \\\n"))), ?_⟩
    rw [← h.1, ← hlit]
    simp [str_append_assoc]

/-- C10 witness: the fixed-host theorem applied to a dependency recorded under a
different registry host, rendering the same line as under crates.io. -/
theorem registry_host_never_used_witness :
    process_dep ⟨false, 0, false, true, false⟩ "self"
        ⟨"foo", "1.0.0", SourceId.Registry "other.example", none⟩
      = process_dep ⟨false, 0, false, true, false⟩ "self"
        ⟨"foo", "1.0.0", SourceId.Registry "crates.io", none⟩ :=
  (registry_host_never_used ⟨false, 0, false, true, false⟩ "self" "foo" "1.0.0"
    none "other.example" "crates.io" (by decide)).2.1
